import Mathlib

/-!
# Court booking ledger: a shallow embedding

This file embeds the core of the court-booking repository (`domain.py`,
`services.py`) as executable Lean definitions and proves the specified
properties about them.

Modelling conventions:

* Timestamps (`datetime`) are natural numbers counting minutes; a calendar
  day is 1440 minutes, so `t / 1440` embeds `datetime.date()` and
  `date.today()` is passed in as a day number.  `datetime.now()` is embedded
  by passing the current clock reading as an explicit parameter; an
  operation of the source that reads the wall clock more than once (such as
  `confirm_payment`, which reads it during the initial sweep and again in
  `Booking.is_expired`) receives one parameter per phase, constrained to be
  monotone where a proof needs it.
* Python `dict`s keyed by strings are association lists preserving
  insertion order: lookup finds the first (unique) matching key, assignment
  replaces in place, and assigning a missing key appends it at the end,
  exactly like a `dict`.
* Money (`float` with `round(x, 2)`) is embedded as exact rationals with
  round-half-to-even at two decimals, the idealisation of Python's `round`.
* `strftime("%Y%m%d")` is embedded as zero-padded decimal rendering of the
  day number — like the source's rendering it is an injective rendering of
  the calendar date, which is the only property the system relies on.
* Python exceptions (`ValueError`) are embedded with `Except`.
-/

namespace CourtBooking

/-- `BookingStatus = Literal["PENDING", "PAID"]` from `domain.py`. -/
inductive BStatus where
  | PENDING
  | PAID
deriving DecidableEq

/-- `Role = Literal["user", "admin"]` from `domain.py`. -/
inductive Role where
  | user
  | admin
deriving DecidableEq

/-! ## Decimal rendering and rounding -/

/-- Decimal digits, most significant first, by structural recursion on a
fuel bound (`fuel ≥ n` makes it exact). -/
def natDigitsBEAux : Nat → Nat → List Nat
  | 0, _ => []
  | fuel + 1, n => if n = 0 then [] else natDigitsBEAux fuel (n / 10) ++ [n % 10]

/-- Decimal digits of `n`, most significant first (empty for `0`). -/
def natDigitsBE (n : Nat) : List Nat := natDigitsBEAux n n

/-- Digits of `n`, zero-padded on the left to at least `w` digits.
Embeds Python's format spec `f"{n:0wd}"` at the digit level. -/
def padDigits (w n : Nat) : List Nat :=
  List.replicate (w - (natDigitsBE n).length) 0 ++ natDigitsBE n

/-- The character for a decimal digit. -/
def digitChar (d : Nat) : Char := Char.ofNat (48 + d)

/-- `f"{n:04d}"`: zero-padded four-digit decimal rendering. -/
def pad4 (n : Nat) : String := String.mk ((padDigits 4 n).map digitChar)

/-- The `%Y%m%d` key of a day number: eight-digit zero-padded decimal
rendering, standing in for `strftime` (injective on dates). -/
def dateKey (day : Nat) : String := String.mk ((padDigits 8 day).map digitChar)

/-- Round a rational to the nearest integer, ties to even — the idealised
semantics of Python's `round(x)`. -/
def roundHalfEven (q : ℚ) : ℤ :=
  let f : ℤ := ⌊q⌋
  let r : ℚ := q - (f : ℚ)
  if r < 1/2 then f
  else if 1/2 < r then f + 1
  else if 2 ∣ f then f else f + 1

/-- Python's `round(x, 2)`. -/
def round2 (q : ℚ) : ℚ := (roundHalfEven (q * 100) : ℚ) / 100

/-! ## `domain.py` -/

/-- The `Booking` entity of `domain.py`.  `start` and `created_at` are
timestamps in minutes; `hold_expires_at` is `Optional[datetime]`. -/
structure Booking where
  booking_id : String
  username : String
  sport : String
  court_id : String
  start : Nat
  duration_slots : Nat
  price_usd : ℚ
  status : BStatus
  created_at : Nat
  hold_expires_at : Option Nat
deriving DecidableEq

/-- `Booking.end_time`: `start + timedelta(minutes=30 * duration_slots)`. -/
def Booking.end_time (b : Booking) : Nat := b.start + 30 * b.duration_slots

/-- `Booking.is_expired`, with the wall-clock reading `now` explicit:
`status == "PENDING" and hold_expires_at and now >= hold_expires_at`. -/
def Booking.is_expired (b : Booking) (now : Nat) : Bool :=
  b.status == .PENDING &&
    match b.hold_expires_at with
    | some e => decide (e ≤ now)
    | none => false

/-- The live-booking predicate the sweep keeps. -/
def keep (now : Nat) (b : Booking) : Bool := !b.is_expired now

/-- `Booking.confirm_payment`: set status `PAID`, clear the hold. -/
def Booking.confirm_payment (b : Booking) : Booking :=
  { b with status := .PAID, hold_expires_at := none }

/-- `Booking.set_hold_expiration`: only a PENDING booking takes a hold. -/
def Booking.set_hold_expiration (b : Booking) (t : Nat) : Booking :=
  if b.status == .PENDING then { b with hold_expires_at := some t } else b

/-- The `User` class of `domain.py` (the `Admin` subclass differs only in
the `role` field). -/
structure User where
  username : String
  password : String
  balance_usd : ℚ
  role : Role
deriving DecidableEq

/-- The `balance_usd` property setter: raises `ValueError` on a negative
value, otherwise stores `round(value, 2)`. -/
def User.setBalance (u : User) (v : ℚ) : Except String User :=
  if v < 0 then .error "Balance cannot be negative"
  else .ok { u with balance_usd := round2 v }

/-- `User.deduct_balance`: deduct `amount` if funds suffice, reporting
success; the mutation goes through the checked setter. -/
def User.deduct_balance (u : User) (amount : ℚ) : Except String (Bool × User) :=
  if u.balance_usd ≥ amount then
    (u.setBalance (u.balance_usd - amount)).map (fun u2 => (true, u2))
  else .ok (false, u)

/-- `User.can_afford`. -/
def User.can_afford (u : User) (amount : ℚ) : Bool :=
  decide (u.balance_usd ≥ amount)

/-! ## Insertion-ordered dictionaries (Python `dict`) -/

/-- A Python `dict` with string keys: an insertion-ordered association
list with unique keys. -/
abbrev Dict (α : Type) := List (String × α)

/-- `d.get(k)`: first (unique) binding of `k`. -/
def dget {α : Type} : Dict α → String → Option α
  | [], _ => none
  | (k1, v) :: t, k => if k1 = k then some v else dget t k

/-- `d.get(k, dflt)`. -/
def dgetD {α : Type} (d : Dict α) (k : String) (dflt : α) : α :=
  (dget d k).getD dflt

/-- `d[k] = v`: replace in place if present, else append at the end —
Python `dict` assignment preserves insertion order this way. -/
def dset {α : Type} : Dict α → String → α → Dict α
  | [], k, v => [(k, v)]
  | (k1, w) :: t, k, v =>
      if k1 = k then (k, v) :: t else (k1, w) :: dset t k v

/-- `for k in d: d[k] = f(d[k])`: rewrite every value in place. -/
def mapVals {α : Type} (f : α → α) (d : Dict α) : Dict α :=
  d.map (fun p => (p.1, f p.2))

/-! ## Catalog, pricing, identifiers (`services.py`) -/

/-- One `Sport` of the inventory: hourly rate and its court ids
(`SportInventoryService` data, loaded from configuration). -/
structure SportInfo where
  hourly_rate : ℚ
  courts : List String
deriving DecidableEq

/-- The configuration the ledger consumes: the sport catalog plus
`venue.booking_window_days` and `venue.hold_timeout_minutes`. -/
structure Config where
  sports : Dict SportInfo
  windowDays : Nat
  holdTimeoutMinutes : Nat

/-- `Sport.calculate_price`: `round(hourly_rate * (0.5 * duration_slots), 2)`. -/
def SportInfo.calculate_price (s : SportInfo) (duration_slots : Nat) : ℚ :=
  round2 (s.hourly_rate * ((1 : ℚ)/2 * duration_slots))

/-- `SportInventoryService.get_courts_for_sport`: `[]` for unknown sports. -/
def get_courts_for_sport (cfg : Config) (sport : String) : List String :=
  match dget cfg.sports sport with
  | some s => s.courts
  | none => []

/-- `PricingService.calculate_price`: `0.0` for unknown sports. -/
def calculate_price (cfg : Config) (sport : String) (duration_slots : Nat) : ℚ :=
  match dget cfg.sports sport with
  | some s => s.calculate_price duration_slots
  | none => 0

/-- `BookingIDGenerator.generate_id`, taking the already-rendered
`%Y%m%d` key: bump the per-date counter and render `BK-<key>-<counter:04d>`. -/
def generate_id (counters : Dict Nat) (date_key : String) : String × Dict Nat :=
  let c := dgetD counters date_key 0 + 1
  ("BK-" ++ date_key ++ "-" ++ pad4 c, dset counters date_key c)

/-! ## The booking ledger (`BookingManagementService`) -/

/-- The mutable state of `BookingManagementService` together with the
`BookingIDGenerator` it draws ids from: the two indices
`_bookings_by_court`, `_bookings_by_user`, and the `_daily_counters`. -/
structure LedgerState where
  byCourt : Dict (List Booking)
  byUser : Dict (List Booking)
  counters : Dict Nat
deriving DecidableEq

/-- The empty initial state. -/
def LedgerState.init : LedgerState := ⟨[], [], []⟩

/-- `_cleanup_expired_holds` (the expiry sweep): drop every expired
booking from every court list and every user list, in place. -/
def cleanup_expired_holds (now : Nat) (L : LedgerState) : LedgerState :=
  { L with
    byCourt := mapVals (fun bs => bs.filter (keep now)) L.byCourt
    byUser := mapVals (fun bs => bs.filter (keep now)) L.byUser }

/-- `_is_within_booking_window`: `today <= target_date <= today + window`. -/
def is_within_booking_window (cfg : Config) (today targetDay : Nat) : Bool :=
  decide (today ≤ targetDay) && decide (targetDay ≤ today + cfg.windowDays)

/-- `_check_court_availability`: no stored booking on the court overlaps
`[start_time, end_time)`. -/
def check_court_availability (L : LedgerState) (court_id : String)
    (start_time end_time : Nat) : Bool :=
  (dgetD L.byCourt court_id []).all
    (fun b => decide (end_time ≤ b.start) || decide (start_time ≥ b.end_time))

/-- `get_available_courts`: sweep, then filter the sport's catalog courts
by availability over the full span.  Returns the result and the state. -/
def get_available_courts (cfg : Config) (now : Nat) (sport : String)
    (start_time : Nat) (duration_slots : Nat) (L : LedgerState) :
    List String × LedgerState :=
  let L1 := cleanup_expired_holds now L
  let end_time := start_time + 30 * duration_slots
  ((get_courts_for_sport cfg sport).filter
      (fun c => check_court_availability L1 c start_time end_time), L1)

/-- The two `ValueError`s `create_booking_hold` raises: the spec's
`WindowViolation` ("Date outside booking window (...)") and
`SlotUnavailable` ("Court no longer available for selected time"). -/
inductive BookErr where
  | windowViolation
  | slotUnavailable
deriving DecidableEq

/-- `create_booking_hold`.  `today` embeds `date.today()` and `now` the
`datetime.now()` read used for `created_at` and the hold expiration.
Checks the window, re-checks availability (against the un-swept index —
this operation performs no expiry sweep), then draws an id, prices the
booking, and appends it to both indices. -/
def create_booking_hold (cfg : Config) (today now : Nat)
    (username sport court_id : String) (start_time duration_slots : Nat)
    (L : LedgerState) : Except BookErr (Booking × LedgerState) :=
  if !is_within_booking_window cfg today (start_time / 1440) then
    .error .windowViolation
  else
    let end_time := start_time + 30 * duration_slots
    if !check_court_availability L court_id start_time end_time then
      .error .slotUnavailable
    else
      let (booking_id, counters2) := generate_id L.counters (dateKey (start_time / 1440))
      let price := calculate_price cfg sport duration_slots
      let b0 : Booking :=
        { booking_id := booking_id, username := username, sport := sport
          court_id := court_id, start := start_time
          duration_slots := duration_slots, price_usd := price
          status := .PENDING, created_at := now, hold_expires_at := none }
      let b := b0.set_hold_expiration (now + cfg.holdTimeoutMinutes)
      .ok (b,
        { byCourt := dset L.byCourt court_id (dgetD L.byCourt court_id [] ++ [b])
          byUser := dset L.byUser username (dgetD L.byUser username [] ++ [b])
          counters := counters2 })

/-- The linear scan `for b in user_bookings: if b.booking_id == id and
b.status == "PENDING"` used by `confirm_payment` and
`cancel_pending_booking`. -/
def findPending (bs : List Booking) (booking_id : String) : Option Booking :=
  bs.find? (fun b => b.booking_id == booking_id && b.status == .PENDING)

/-- `cancel_pending_booking`: sweep, find the user's PENDING booking with
this id, and if present filter it (by id) out of its court's list and the
user's list. -/
def cancel_pending_booking (now : Nat) (username booking_id : String)
    (L : LedgerState) : Bool × LedgerState :=
  let L1 := cleanup_expired_holds now L
  match findPending (dgetD L1.byUser username []) booking_id with
  | none => (false, L1)
  | some b =>
      (true,
        { L1 with
          byCourt := dset L1.byCourt b.court_id
            ((dgetD L1.byCourt b.court_id []).filter
              (fun x => x.booking_id != booking_id))
          byUser := dset L1.byUser username
            ((dgetD L1.byUser username []).filter
              (fun x => x.booking_id != booking_id)) })

/-- The in-place mutation `booking.confirm_payment()` as seen through an
index list: the booking object is shared by both indices, so both lists
see the status flip; bookings are identified by their (unique) id. -/
def markPaidIn (bs : List Booking) (booking_id : String) : List Booking :=
  bs.map (fun b => if b.booking_id == booking_id then b.confirm_payment else b)

/-- `confirm_payment`.  `now1` is the clock reading of the initial sweep;
`now2` the (later) reading inside `booking.is_expired()` and the nested
cancellation.  Returns the Python triple `(ok, message, booking)`, the new
ledger state and the (possibly debited) user; a `ValueError` escaping the
balance setter surfaces as `.error`. -/
def confirm_payment (now1 now2 : Nat) (u : User) (booking_id : String)
    (L : LedgerState) :
    Except String ((Bool × String × Option Booking) × LedgerState × User) :=
  let L1 := cleanup_expired_holds now1 L
  match findPending (dgetD L1.byUser u.username []) booking_id with
  | none => .ok ((false, "Booking not found or not pending", none), L1, u)
  | some b =>
      if b.is_expired now2 then
        let L2 := (cancel_pending_booking now2 u.username booking_id L1).2
        .ok ((false, "Hold expired. Please start again.", none), L2, u)
      else if !u.can_afford b.price_usd then
        .ok ((false, "Insufficient balance", some b), L1, u)
      else
        match u.deduct_balance b.price_usd with
        | .error e => .error e
        | .ok (true, u2) =>
            let L2 :=
              { L1 with
                byUser := dset L1.byUser u.username
                  (markPaidIn (dgetD L1.byUser u.username []) booking_id)
                byCourt := dset L1.byCourt b.court_id
                  (markPaidIn (dgetD L1.byCourt b.court_id []) booking_id) }
            .ok ((true, "Payment successful", some b.confirm_payment), L2, u2)
        | .ok (false, u2) => .ok ((false, "Payment failed", some b), L1, u2)

/-- `admin_remove_booking`'s nested scan over `_bookings_by_court.items()`
for the first booking (any status) with this id, with its court key. -/
def findCourtBooking : Dict (List Booking) → String → Option (String × Booking)
  | [], _ => none
  | (c, bs) :: t, booking_id =>
      match bs.find? (fun b => b.booking_id == booking_id) with
      | some b => some (c, b)
      | none => findCourtBooking t booking_id

/-- `admin_remove_booking`: sweep, locate the booking across all courts,
then filter it (by id) out of that court's list and its owner's list. -/
def admin_remove_booking (now : Nat) (booking_id : String) (L : LedgerState) :
    Bool × LedgerState :=
  let L1 := cleanup_expired_holds now L
  match findCourtBooking L1.byCourt booking_id with
  | none => (false, L1)
  | some (c, b) =>
      (true,
        { L1 with
          byCourt := dset L1.byCourt c
            ((dgetD L1.byCourt c []).filter (fun x => x.booking_id != booking_id))
          byUser := dset L1.byUser b.username
            ((dgetD L1.byUser b.username []).filter
              (fun x => x.booking_id != booking_id)) })

/-- The comparison `key=lambda b: (b.start, b.booking_id)` of the listing
operations, as a boolean total preorder. -/
def bkeyLe (a b : Booking) : Bool :=
  decide (a.start < b.start) ||
    (decide (a.start = b.start) && decide (a.booking_id ≤ b.booking_id))

/-- Python `sorted(bs, key=lambda b: (b.start, b.booking_id))`. -/
def sortBookings (bs : List Booking) : List Booking := bs.mergeSort bkeyLe

/-- `get_user_bookings`: sweep, then the user's bookings sorted by
`(start, booking_id)`. -/
def get_user_bookings (now : Nat) (username : String) (L : LedgerState) :
    List Booking × LedgerState :=
  let L1 := cleanup_expired_holds now L
  (sortBookings (dgetD L1.byUser username []), L1)

/-- `get_all_bookings`: sweep, concatenate every court's list, sort by
`(start, booking_id)`. -/
def get_all_bookings (now : Nat) (L : LedgerState) :
    List Booking × LedgerState :=
  let L1 := cleanup_expired_holds now L
  (sortBookings (L1.byCourt.map Prod.snd).flatten, L1)

/-! ## Derived notions used by the specification -/

/-- Two bookings occupy disjoint time intervals. -/
def Disj (a b : Booking) : Prop :=
  a.end_time ≤ b.start ∨ b.end_time ≤ a.start

/-- Every court list of the by-court index is pairwise interval-disjoint. -/
def DisjD (d : Dict (List Booking)) : Prop :=
  ∀ c l, dget d c = some l → l.Pairwise Disj

/-- The states reachable from the empty ledger by the public operations.
`create_booking_hold` appears through its success equation (on failure it
raises before mutating anything, leaving the state unchanged), and
likewise `confirm_payment` (whose state on a balance-setter error is the
post-sweep state, covered by the `sweep` step).  The read-only queries
(`get_availability_grid`, `get_available_courts`, the listings) mutate the
state exactly by the expiry sweep, covered by the `sweep` step. -/
inductive Reachable (cfg : Config) : LedgerState → Prop where
  | init : Reachable cfg .init
  | create {L b L2} (today now : Nat) (un sp c : String) (st sl : Nat)
      (h1 : Reachable cfg L)
      (h2 : create_booking_hold cfg today now un sp c st sl L = .ok (b, L2)) :
      Reachable cfg L2
  | confirm {L r L2 u2} (now1 now2 : Nat) (u : User) (id : String)
      (h1 : Reachable cfg L)
      (h2 : confirm_payment now1 now2 u id L = .ok (r, L2, u2)) :
      Reachable cfg L2
  | cancel {L} (now : Nat) (un id : String) (h1 : Reachable cfg L) :
      Reachable cfg (cancel_pending_booking now un id L).2
  | adminRemove {L} (now : Nat) (id : String) (h1 : Reachable cfg L) :
      Reachable cfg (admin_remove_booking now id L).2
  | sweep {L} (now : Nat) (h1 : Reachable cfg L) :
      Reachable cfg (cleanup_expired_holds now L)

/-- `"BK-" + date_key + "-" + f"{n:04d}"`: the id issued for the `n`-th
request of a date. -/
def mkId (date_key : String) (n : Nat) : String :=
  "BK-" ++ date_key ++ "-" ++ pad4 n

/-- Run the id generator over a sequence of (already-rendered) date keys,
collecting the issued ids in order. -/
def runGen : List String → Dict Nat → List String
  | [], _ => []
  | k :: ks, cs =>
      let (id, cs2) := generate_id cs k
      id :: runGen ks cs2

/-- The ids issued for date key `d`, in order, along a run over `ks`. -/
def idsFor (d : String) (ks : List String) (cs : Dict Nat) : List String :=
  ((ks.zip (runGen ks cs)).filter (fun p => p.1 == d)).map Prod.snd

/-- Decode a big-endian digit list (inverse of rendering, ignoring
leading zeros). -/
def decodeDigits (l : List Nat) : Nat := l.foldl (fun a d => 10 * a + d) 0

/-- The numeric value of a decimal digit character. -/
def charVal (c : Char) : Nat := c.toNat - 48

/-- The sort key `(b.start, b.booking_id)`, ordered lexicographically. -/
def bkey (b : Booking) : Nat ×ₗ String := toLex (b.start, b.booking_id)

/-! ## A demonstration catalog (used by concrete instances below) -/

/-- A small catalog: badminton at 10 USD/hour on two courts, a 30-day
window, 5-minute holds. -/
def demoCfg : Config := ⟨[("badminton", ⟨10, ["B01", "B02"]⟩)], 30, 5⟩

/-- A pending badminton booking on court B01 for 10:00–11:00 of day 20000
(minute 28800600), created at minute 28800540 with a 5-minute hold, so
expired from minute 28800545 on. -/
def staleBk : Booking :=
  { booking_id := "BK-00020000-0001", username := "alice", sport := "badminton"
    court_id := "B01", start := 28800600, duration_slots := 2, price_usd := 10
    status := .PENDING, created_at := 28800540
    hold_expires_at := some 28800545 }

/-- The ledger state holding exactly `staleBk` in both indices. -/
def staleL : LedgerState :=
  { byCourt := [("B01", [staleBk])], byUser := [("alice", [staleBk])]
    counters := [("00020000", 1)] }

/-- The booking `create_booking_hold` builds on the demo catalog for
court B01, 10:00 of day 20000, two slots, requested at minute 28800540
(its price left symbolic, exactly as the code computes it). -/
def rbk : Booking :=
  { booking_id := "BK-00020000-0001", username := "alice", sport := "badminton"
    court_id := "B01", start := 28800600, duration_slots := 2
    price_usd := calculate_price demoCfg "badminton" 2
    status := .PENDING, created_at := 28800540
    hold_expires_at := some 28800545 }

/-- The ledger state `create_booking_hold` reaches from the empty state
by creating `rbk`. -/
def rL : LedgerState :=
  { byCourt := [("B01", [rbk])], byUser := [("alice", [rbk])]
    counters := [("00020000", 1)] }

/-! ## Dictionary lemmas -/

theorem dget_mapVals {α : Type} (f : α → α) (d : Dict α) (k : String) :
    dget (mapVals f d) k = (dget d k).map f := by
  induction d with
  | nil => rfl
  | cons p t ih =>
      simp only [mapVals, List.map_cons, dget]
      split <;> simp_all [mapVals]

theorem dget_dset {α : Type} (d : Dict α) (k : String) (v : α) (k2 : String) :
    dget (dset d k v) k2 = if k = k2 then some v else dget d k2 := by
  induction d with
  | nil => simp [dset, dget]
  | cons p t ih =>
      obtain ⟨k1, w⟩ := p
      by_cases h1 : k1 = k <;> by_cases h2 : k1 = k2 <;>
        (subst_vars
         simp_all [dset, dget]
         try rw [if_neg (fun h => h1 (Eq.symm h))])

theorem dget_mem {α : Type} {d : Dict α} {k : String} {v : α}
    (h : dget d k = some v) : (k, v) ∈ d := by
  induction d with
  | nil => simp [dget] at h
  | cons p t ih =>
      obtain ⟨k1, w⟩ := p
      simp only [dget] at h
      split at h
      · cases h
        subst_vars
        simp
      · simp [ih h]

theorem mapVals_mapVals {α : Type} (f g : α → α) (d : Dict α) :
    mapVals f (mapVals g d) = mapVals (fun v => f (g v)) d := by
  induction d with
  | nil => rfl
  | cons p t ih => simp_all [mapVals]

theorem mapVals_dset {α : Type} (f : α → α) (d : Dict α) (k : String) (v : α) :
    mapVals f (dset d k v) = dset (mapVals f d) k (f v) := by
  induction d with
  | nil => rfl
  | cons p t ih =>
      obtain ⟨k1, w⟩ := p
      simp only [dset, mapVals, List.map_cons]
      split <;> simp_all [mapVals, dset]

/-! ## Expiry-sweep lemmas -/

theorem byCourt_cleanup (now : Nat) (L : LedgerState) :
    (cleanup_expired_holds now L).byCourt =
      mapVals (fun bs => bs.filter (keep now)) L.byCourt := rfl

theorem byUser_cleanup (now : Nat) (L : LedgerState) :
    (cleanup_expired_holds now L).byUser =
      mapVals (fun bs => bs.filter (keep now)) L.byUser := rfl

theorem counters_cleanup (now : Nat) (L : LedgerState) :
    (cleanup_expired_holds now L).counters = L.counters := rfl

theorem dgetD_cleanup_byUser (now : Nat) (L : LedgerState) (u : String) :
    dgetD (cleanup_expired_holds now L).byUser u [] =
      (dgetD L.byUser u []).filter (keep now) := by
  simp only [dgetD, byUser_cleanup, dget_mapVals]
  cases dget L.byUser u <;> simp

theorem dgetD_cleanup_byCourt (now : Nat) (L : LedgerState) (c : String) :
    dgetD (cleanup_expired_holds now L).byCourt c [] =
      (dgetD L.byCourt c []).filter (keep now) := by
  simp only [dgetD, byCourt_cleanup, dget_mapVals]
  cases dget L.byCourt c <;> simp

/-- Anything still stored in a court list after the sweep is live. -/
theorem keep_of_mem_cleanup_byCourt {now : Nat} {L : LedgerState} {c : String}
    {l : List Booking} {b : Booking}
    (h : dget (cleanup_expired_holds now L).byCourt c = some l) (hb : b ∈ l) :
    keep now b = true := by
  simp only [byCourt_cleanup, dget_mapVals] at h
  cases hg : dget L.byCourt c with
  | none => simp [hg] at h
  | some l0 =>
      simp [hg] at h
      subst h
      exact (List.mem_filter.mp hb).2

/-- Anything still stored in a user list after the sweep is live. -/
theorem keep_of_mem_cleanup_byUser {now : Nat} {L : LedgerState} {u : String}
    {l : List Booking} {b : Booking}
    (h : dget (cleanup_expired_holds now L).byUser u = some l) (hb : b ∈ l) :
    keep now b = true := by
  simp only [byUser_cleanup, dget_mapVals] at h
  cases hg : dget L.byUser u with
  | none => simp [hg] at h
  | some l0 =>
      simp [hg] at h
      subst h
      exact (List.mem_filter.mp hb).2

/-- A list all of whose elements a filter keeps is left unchanged. -/
theorem filter_stable_of_stable {α : Type} {p q : α → Bool} {l : List α}
    (h : l.filter p = l) : (l.filter q).filter p = l.filter q := by
  rw [List.filter_eq_self] at h ⊢
  exact fun a ha => h a (List.mem_of_mem_filter ha)

/-! ## Rounding lemmas -/

theorem roundHalfEven_nonneg {q : ℚ} (h : 0 ≤ q) : 0 ≤ roundHalfEven q := by
  have hf : (0 : ℤ) ≤ ⌊q⌋ := Int.floor_nonneg.mpr h
  unfold roundHalfEven
  dsimp only
  split
  · exact hf
  · split
    · omega
    · split
      · exact hf
      · omega

theorem round2_nonneg {q : ℚ} (h : 0 ≤ q) : 0 ≤ round2 q := by
  unfold round2
  have h2 : (0 : ℤ) ≤ roundHalfEven (q * 100) :=
    roundHalfEven_nonneg (by positivity)
  exact div_nonneg (by exact_mod_cast h2) (by norm_num)

theorem mapVals_congr {α : Type} {f g : α → α} (d : Dict α)
    (h : ∀ v, f v = g v) : mapVals f d = mapVals g d := by
  simp only [mapVals]
  exact List.map_congr_left (fun p _ => by rw [h])

theorem filter_keep_filter_keep (now : Nat) (l : List Booking) :
    (l.filter (keep now)).filter (keep now) = l.filter (keep now) :=
  List.filter_eq_self.mpr (fun _ ha => (List.mem_filter.mp ha).2)

/-- The expiry sweep is idempotent. -/
theorem cleanup_idem (now : Nat) (L : LedgerState) :
    cleanup_expired_holds now (cleanup_expired_holds now L) =
      cleanup_expired_holds now L := by
  unfold cleanup_expired_holds
  simp only [mapVals_mapVals]
  congr 1
  · exact mapVals_congr _ (fun v => filter_keep_filter_keep now v)
  · exact mapVals_congr _ (fun v => filter_keep_filter_keep now v)

/-! ## C6: pricing -/

/-- C6: for every sport present in the catalog and every duration,
`PricingService.calculate_price` equals
`round(hourly_rate(sport) * duration_slots * 0.5, 2)`; the function is
pure and total, and at a 10 USD/hour rate two slots price at exactly
10.00 USD. -/
theorem C6_pricing_formula :
    (∀ (cfg : Config) (sport : String) (si : SportInfo) (duration_slots : Nat),
      dget cfg.sports sport = some si →
      calculate_price cfg sport duration_slots =
        round2 (si.hourly_rate * duration_slots * ((1 : ℚ)/2)))
    ∧ calculate_price demoCfg "badminton" 2 = 10 := by
  constructor
  · intro cfg sport si duration_slots h
    simp only [calculate_price, h, SportInfo.calculate_price]
    congr 1
    ring
  · show calculate_price demoCfg "badminton" 2 = 10
    have h1 : calculate_price demoCfg "badminton" 2 =
        round2 (10 * ((1 : ℚ)/2 * 2)) := rfl
    rw [h1]
    have h2 : (10 * ((1 : ℚ)/2 * 2)) * 100 = 1000 := by norm_num
    rw [round2, h2]
    norm_num [roundHalfEven]

/-- Witness for C6: the general pricing formula applied to the demo
catalog. -/
theorem C6_pricing_formula_witness :
    calculate_price demoCfg "badminton" 2 =
      round2 ((10 : ℚ) * 2 * ((1 : ℚ)/2)) :=
  C6_pricing_formula.1 demoCfg "badminton" ⟨10, ["B01", "B02"]⟩ 2 (by decide)

/-! ## C10: the balance invariant -/

/-- A user with a 50 USD balance, used in concrete instances. -/
def demoUser : User := ⟨"alice", "pw", 50, .user⟩

/-- C10: `deduct_balance` succeeds exactly when the balance covers the
amount; on success the new balance is `round(old - amount, 2)` and is
nonnegative; otherwise the user is unchanged; and the balance setter
rejects every negative value — so no sequence of deductions drives a
balance below zero. -/
theorem C10_deduct_balance (u : User) (amount : ℚ) :
    (amount ≤ u.balance_usd →
      u.deduct_balance amount =
        .ok (true, { u with balance_usd := round2 (u.balance_usd - amount) }) ∧
      0 ≤ round2 (u.balance_usd - amount))
    ∧ (¬ amount ≤ u.balance_usd → u.deduct_balance amount = .ok (false, u))
    ∧ (∀ v, v < 0 → u.setBalance v = .error "Balance cannot be negative") := by
  refine ⟨fun h => ?_, fun h => ?_, fun v hv => ?_⟩
  · have hnn : ¬ (u.balance_usd - amount < 0) := not_lt.mpr (sub_nonneg.mpr h)
    exact ⟨by simp [User.deduct_balance, ge_iff_le, h, User.setBalance, hnn,
        Except.map],
      round2_nonneg (sub_nonneg.mpr h)⟩
  · simp [User.deduct_balance, ge_iff_le, h]
  · simp [User.setBalance, hv]

/-- Witness for C10: deducting 10 USD from a 50 USD balance. -/
theorem C10_deduct_balance_witness :
    (10 : ℚ) ≤ demoUser.balance_usd ∧
      demoUser.deduct_balance 10 =
        .ok (true, { demoUser with balance_usd := round2 (demoUser.balance_usd - 10) }) :=
  ⟨by decide, ((C10_deduct_balance demoUser 10).1 (by decide)).1⟩

/-! ## C2: the expiry sweep and `create_booking_hold` -/

/-- Counterexample to C2 as stated: at minute 28800545 the hold of
`staleBk` has expired but not been swept, and a fresh hold request for
the same court and interval fails with `SlotUnavailable` —
`create_booking_hold` does not run the expiry sweep. -/
theorem C2_counterexample :
    staleBk.is_expired 28800545 = true ∧
    create_booking_hold demoCfg 20000 28800545 "bob" "badminton" "B01"
        28800600 2 staleL = .error .slotUnavailable :=
  ⟨rfl, rfl⟩

/-- An overlap with any stored booking on the requested court (live or
expired) makes `create_booking_hold` fail with `SlotUnavailable`, the
window check passing. -/
theorem create_overlap_slotUnavailable (cfg : Config) (today now : Nat)
    (un sp c : String) (st sl : Nat) (L : LedgerState) (b2 : Booking)
    (hmem : b2 ∈ dgetD L.byCourt c [])
    (hlt1 : st < b2.end_time) (hlt2 : b2.start < st + 30 * sl)
    (hwin : is_within_booking_window cfg today (st / 1440) = true) :
    create_booking_hold cfg today now un sp c st sl L = .error .slotUnavailable := by
  have hfail : check_court_availability L c st (st + 30 * sl) = false := by
    cases hk : check_court_availability L c st (st + 30 * sl)
    · rfl
    · exfalso
      simp only [check_court_availability, List.all_eq_true] at hk
      have h2 := hk b2 hmem
      simp only [Booking.end_time, Bool.or_eq_true, decide_eq_true_eq,
        ge_iff_le] at h2
      simp only [Booking.end_time] at hlt1
      omega
  simp [create_booking_hold, hwin, hfail]

/-- C2 (amended): the expiry sweep runs at the top of every ledger
operation except `create_booking_hold`, which re-checks availability
against all stored bookings, expired-but-unswept holds included: such a
hold makes an overlapping request fail with `SlotUnavailable`, and once
any other operation has swept (`cleanup_expired_holds`), a request
overlapping no live booking succeeds. -/
theorem C2_amended :
    (∀ (cfg : Config) (today now : Nat) (un sp c : String) (st sl : Nat)
        (L : LedgerState) (b2 : Booking),
      b2 ∈ dgetD L.byCourt c [] →
      st < b2.end_time → b2.start < st + 30 * sl →
      is_within_booking_window cfg today (st / 1440) = true →
      create_booking_hold cfg today now un sp c st sl L = .error .slotUnavailable)
    ∧ (∀ (cfg : Config) (today now now2 : Nat) (un sp c : String) (st sl : Nat)
        (L : LedgerState),
      is_within_booking_window cfg today (st / 1440) = true →
      check_court_availability (cleanup_expired_holds now2 L) c st (st + 30 * sl) = true →
      ∃ b L2, create_booking_hold cfg today now un sp c st sl
          (cleanup_expired_holds now2 L) = .ok (b, L2))
    ∧ (∀ now1 now2 u id L, confirm_payment now1 now2 u id L =
        confirm_payment now1 now2 u id (cleanup_expired_holds now1 L))
    ∧ (∀ now un id L, cancel_pending_booking now un id L =
        cancel_pending_booking now un id (cleanup_expired_holds now L))
    ∧ (∀ now id L, admin_remove_booking now id L =
        admin_remove_booking now id (cleanup_expired_holds now L))
    ∧ (∀ cfg now sp st sl L, get_available_courts cfg now sp st sl L =
        get_available_courts cfg now sp st sl (cleanup_expired_holds now L))
    ∧ (∀ now un L, get_user_bookings now un L =
        get_user_bookings now un (cleanup_expired_holds now L))
    ∧ (∀ now L, get_all_bookings now L =
        get_all_bookings now (cleanup_expired_holds now L)) := by
  refine ⟨?_, ?_, ?_, ?_, ?_, ?_, ?_, ?_⟩
  · intro cfg today now un sp c st sl L b2 hmem hlt1 hlt2 hwin
    exact create_overlap_slotUnavailable cfg today now un sp c st sl L b2
      hmem hlt1 hlt2 hwin
  · intro cfg today now now2 un sp c st sl L hwin hav
    simp only [create_booking_hold, hwin, hav, Bool.not_true, Bool.false_eq_true,
      if_false, reduceIte]
    exact ⟨_, _, rfl⟩
  · intro now1 now2 u id L
    simp only [confirm_payment, cleanup_idem]
  · intro now un id L
    simp only [cancel_pending_booking, cleanup_idem]
  · intro now id L
    simp only [admin_remove_booking, cleanup_idem]
  · intro cfg now sp st sl L
    simp only [get_available_courts, cleanup_idem]
  · intro now un L
    simp only [get_user_bookings, cleanup_idem]
  · intro now L
    simp only [get_all_bookings, cleanup_idem]

/-- Witness for C2 (amended): the expired hold of `staleL` blocks an
overlapping request, and after a sweep the same request succeeds. -/
theorem C2_amended_witness :
    create_booking_hold demoCfg 20000 28800545 "bob" "badminton" "B01"
        28800600 2 staleL = .error .slotUnavailable ∧
    ∃ b L2, create_booking_hold demoCfg 20000 28800545 "bob" "badminton" "B01"
        28800600 2 (cleanup_expired_holds 28800545 staleL) = .ok (b, L2) :=
  ⟨C2_amended.1 demoCfg 20000 28800545 "bob" "badminton" "B01" 28800600 2
      staleL staleBk (by decide) (by decide) (by decide) (by decide),
    C2_amended.2.1 demoCfg 20000 28800545 28800545 "bob" "badminton" "B01"
      28800600 2 staleL (by decide) (by decide)⟩

/-! ## C5: data-model validity at `create_booking_hold` -/

/-- Counterexample to C5 as stated: `create_booking_hold` admits a
booking whose sport (`"squash"`) is not in the catalog, whose court
(`"X99"`) is in no sport's court list, and whose start (minute
28800007 of day 20000) is not aligned to a 30-minute boundary; the
unknown sport is priced at 0. -/
theorem C5_counterexample :
    dget demoCfg.sports "squash" = none ∧
    (∀ sp si, dget demoCfg.sports sp = some si → "X99" ∉ si.courts) ∧
    28800007 % 30 ≠ 0 ∧
    ∃ b L2,
      create_booking_hold demoCfg 20000 28800007 "alice" "squash" "X99"
          28800007 1 .init = .ok (b, L2) ∧
      b.sport = "squash" ∧ b.court_id = "X99" ∧ b.start = 28800007 ∧
      b.price_usd = 0 := by
  refine ⟨rfl, ?_, by decide, ⟨_, _, rfl, rfl, rfl, rfl, rfl⟩⟩
  intro sp si h
  have hm := dget_mem h
  simp only [demoCfg, List.mem_singleton, Prod.mk.injEq] at hm
  rcases hm with ⟨h1, h2⟩
  subst h2
  decide

/-- C5 (amended): `create_booking_hold` validates only the booking window
and the availability re-check; any sport, court id and start time passing
those two checks is admitted — in particular a sport absent from the
catalog, priced 0.0 by the pricing fallback.  (Catalog membership and
30-minute alignment are enforced only by the interactive caller.) -/
theorem C5_amended (cfg : Config) (today now : Nat) (un sp c : String)
    (st sl : Nat) (L : LedgerState)
    (hsp : dget cfg.sports sp = none)
    (hwin : is_within_booking_window cfg today (st / 1440) = true)
    (hav : check_court_availability L c st (st + 30 * sl) = true) :
    ∃ b L2, create_booking_hold cfg today now un sp c st sl L = .ok (b, L2)
      ∧ b.sport = sp ∧ b.court_id = c ∧ b.start = st ∧ b.price_usd = 0 := by
  simp only [create_booking_hold, hwin, hav, Bool.not_true, Bool.false_eq_true,
    if_false, reduceIte]
  refine ⟨_, _, rfl, ?_, ?_, ?_, ?_⟩ <;>
    simp [Booking.set_hold_expiration, calculate_price, hsp]

/-- Witness for C5 (amended): the concrete unvalidated request of the
counterexample, through the general statement. -/
theorem C5_amended_witness :
    ∃ b L2,
      create_booking_hold demoCfg 20000 28800007 "bob" "squash" "X99"
          28800007 1 .init = .ok (b, L2)
      ∧ b.sport = "squash" ∧ b.court_id = "X99" ∧ b.start = 28800007
      ∧ b.price_usd = 0 :=
  C5_amended demoCfg 20000 28800007 "bob" "squash" "X99" 28800007 1 .init
    (by decide) (by decide) (by decide)

/-! ## Stability of swept states -/

theorem dget_dset_self {α : Type} (d : Dict α) (k : String) (v : α) :
    dget (dset d k v) k = some v := by
  rw [dget_dset]
  simp

theorem dgetD_dset_self {α : Type} (d : Dict α) (k : String) (v : α) (dflt : α) :
    dgetD (dset d k v) k dflt = v := by
  rw [dgetD, dget_dset_self]
  rfl

theorem dget_dset_ne {α : Type} (d : Dict α) (k : String) (v : α) (k2 : String)
    (h : k ≠ k2) : dget (dset d k v) k2 = dget d k2 := by
  rw [dget_dset, if_neg h]

theorem dgetD_dset_ne {α : Type} (d : Dict α) (k : String) (v : α) (k2 : String)
    (dflt : α) (h : k ≠ k2) : dgetD (dset d k v) k2 dflt = dgetD d k2 dflt := by
  rw [dgetD, dget_dset_ne _ _ _ _ h]
  rfl

theorem mapVals_keep_idem (now : Nat) (d : Dict (List Booking)) :
    mapVals (fun bs => bs.filter (keep now))
        (mapVals (fun bs => bs.filter (keep now)) d) =
      mapVals (fun bs => bs.filter (keep now)) d := by
  rw [mapVals_mapVals]
  exact mapVals_congr _ (fun v => filter_keep_filter_keep now v)

theorem keep_dgetD_cleanup_byCourt (now : Nat) (L : LedgerState) (c : String) :
    (dgetD (cleanup_expired_holds now L).byCourt c []).filter (keep now) =
      dgetD (cleanup_expired_holds now L).byCourt c [] := by
  rw [dgetD_cleanup_byCourt]
  exact filter_keep_filter_keep now _

theorem keep_dgetD_cleanup_byUser (now : Nat) (L : LedgerState) (u : String) :
    (dgetD (cleanup_expired_holds now L).byUser u []).filter (keep now) =
      dgetD (cleanup_expired_holds now L).byUser u [] := by
  rw [dgetD_cleanup_byUser]
  exact filter_keep_filter_keep now _

/-- A state obtained from a swept state by overwriting one court list and
one user list with keep-stable lists is itself swept. -/
theorem cleanup_of_clean_dset (now : Nat) (L : LedgerState) (k1 : String)
    (v1 : List Booking) (k2 : String) (v2 : List Booking) (cs : Dict Nat)
    (h1 : v1.filter (keep now) = v1) (h2 : v2.filter (keep now) = v2) :
    cleanup_expired_holds now
      { byCourt := dset (cleanup_expired_holds now L).byCourt k1 v1
        byUser := dset (cleanup_expired_holds now L).byUser k2 v2
        counters := cs } =
      { byCourt := dset (cleanup_expired_holds now L).byCourt k1 v1
        byUser := dset (cleanup_expired_holds now L).byUser k2 v2
        counters := cs } := by
  unfold cleanup_expired_holds
  simp only [mapVals_dset, h1, h2]
  rw [mapVals_keep_idem, mapVals_keep_idem]

/-- Cancelling on an already-swept state holding no matching PENDING
booking is a strict no-op. -/
theorem cancel_of_clean_none (now : Nat) (un id : String) (S : LedgerState)
    (hclean : cleanup_expired_holds now S = S)
    (hnone : findPending (dgetD S.byUser un []) id = none) :
    cancel_pending_booking now un id S = (false, S) := by
  simp only [cancel_pending_booking, hclean, hnone]

/-! ## C8: idempotent cancellation -/

/-- C8: `cancel_pending_booking` returns true and removes the booking
from the user's list and its court's list exactly when the (post-sweep)
user list holds a PENDING booking with that id; it returns false as a
no-op (beyond the sweep) otherwise, leaving PAID bookings in place; and a
second call with the same id returns false and leaves the state exactly
unchanged. -/
theorem C8_cancel_idempotent (now : Nat) (un id : String) (L : LedgerState) :
    (∀ b, findPending (dgetD (cleanup_expired_holds now L).byUser un []) id = some b →
      (cancel_pending_booking now un id L).1 = true
      ∧ (∀ x ∈ dgetD (cancel_pending_booking now un id L).2.byUser un [],
          x.booking_id ≠ id)
      ∧ (∀ x ∈ dgetD (cancel_pending_booking now un id L).2.byCourt b.court_id [],
          x.booking_id ≠ id)
      ∧ cancel_pending_booking now un id (cancel_pending_booking now un id L).2 =
          (false, (cancel_pending_booking now un id L).2))
    ∧ (findPending (dgetD (cleanup_expired_holds now L).byUser un []) id = none →
      cancel_pending_booking now un id L = (false, cleanup_expired_holds now L)
      ∧ (∀ x ∈ dgetD L.byUser un [], x.status = .PAID →
          x ∈ dgetD (cancel_pending_booking now un id L).2.byUser un [])) := by
  constructor
  · intro b hfind
    have hc : cancel_pending_booking now un id L =
        (true,
          { cleanup_expired_holds now L with
            byCourt := dset (cleanup_expired_holds now L).byCourt b.court_id
              ((dgetD (cleanup_expired_holds now L).byCourt b.court_id []).filter
                (fun x => x.booking_id != id))
            byUser := dset (cleanup_expired_holds now L).byUser un
              ((dgetD (cleanup_expired_holds now L).byUser un []).filter
                (fun x => x.booking_id != id)) }) := by
      simp only [cancel_pending_booking, hfind]
    have hclean : cleanup_expired_holds now (cancel_pending_booking now un id L).2 =
        (cancel_pending_booking now un id L).2 := by
      rw [hc]
      exact cleanup_of_clean_dset now L _ _ _ _ _
        (filter_stable_of_stable (keep_dgetD_cleanup_byCourt now L b.court_id))
        (filter_stable_of_stable (keep_dgetD_cleanup_byUser now L un))
    have huser : dgetD (cancel_pending_booking now un id L).2.byUser un [] =
        (dgetD (cleanup_expired_holds now L).byUser un []).filter
          (fun x => x.booking_id != id) := by
      rw [hc]
      exact dgetD_dset_self _ _ _ _
    refine ⟨by rw [hc], ?_, ?_, ?_⟩
    · intro x hx
      rw [huser] at hx
      simpa using (List.mem_filter.mp hx).2
    · intro x hx
      rw [hc] at hx
      simp only at hx
      rw [dgetD_dset_self] at hx
      simpa using (List.mem_filter.mp hx).2
    · refine cancel_of_clean_none now un id _ hclean ?_
      rw [huser]
      rw [findPending, List.find?_eq_none]
      intro x hx
      have hne := (List.mem_filter.mp hx).2
      simp only [bne_iff_ne, ne_eq] at hne
      simp [hne]
  · intro hfind
    have hc : cancel_pending_booking now un id L =
        (false, cleanup_expired_holds now L) := by
      simp only [cancel_pending_booking, hfind]
    refine ⟨hc, ?_⟩
    intro x hx hpaid
    rw [hc]
    simp only [dgetD_cleanup_byUser]
    refine List.mem_filter.mpr ⟨hx, ?_⟩
    simp [keep, Booking.is_expired, hpaid]

/-- Witness for C8: cancelling the live hold of `staleL` at minute
28800540 succeeds; the second, identical call returns false and changes
nothing. -/
theorem C8_cancel_idempotent_witness :
    findPending (dgetD (cleanup_expired_holds 28800540 staleL).byUser "alice" [])
        "BK-00020000-0001" = some staleBk ∧
    (cancel_pending_booking 28800540 "alice" "BK-00020000-0001" staleL).1 = true ∧
    cancel_pending_booking 28800540 "alice" "BK-00020000-0001"
        (cancel_pending_booking 28800540 "alice" "BK-00020000-0001" staleL).2 =
      (false, (cancel_pending_booking 28800540 "alice" "BK-00020000-0001" staleL).2) := by
  have h := (C8_cancel_idempotent 28800540 "alice" "BK-00020000-0001" staleL).1
    staleBk (by decide)
  exact ⟨by decide, h.1, h.2.2.2⟩

/-! ## C3: `confirm_payment` failure taxonomy -/

theorem keep_of_mem_dgetD_cleanup_byCourt {now : Nat} {L : LedgerState}
    {c : String} {b : Booking}
    (h : b ∈ dgetD (cleanup_expired_holds now L).byCourt c []) :
    keep now b = true := by
  rw [dgetD_cleanup_byCourt] at h
  exact (List.mem_filter.mp h).2

theorem keep_of_mem_dgetD_cleanup_byUser {now : Nat} {L : LedgerState}
    {u : String} {b : Booking}
    (h : b ∈ dgetD (cleanup_expired_holds now L).byUser u []) :
    keep now b = true := by
  rw [dgetD_cleanup_byUser] at h
  exact (List.mem_filter.mp h).2

/-- A booking expired at `now` is found nowhere in the state left by
`cancel_pending_booking` at `now` (its sweep removes it from every list;
the explicit removal only filters further). -/
theorem not_mem_cancel_of_expired {now : Nat} {b : Booking} (un id : String)
    (L : LedgerState) (hexp : b.is_expired now = true) :
    (∀ c l, dget (cancel_pending_booking now un id L).2.byCourt c = some l → b ∉ l)
    ∧ (∀ u2 l, dget (cancel_pending_booking now un id L).2.byUser u2 = some l → b ∉ l) := by
  have hkeep : keep now b = false := by simp [keep, hexp]
  unfold cancel_pending_booking
  cases hf : findPending (dgetD (cleanup_expired_holds now L).byUser un []) id with
  | none =>
      simp only [hf]
      refine ⟨fun c l hl hb => ?_, fun u2 l hl hb => ?_⟩
      · rw [keep_of_mem_cleanup_byCourt hl hb] at hkeep
        cases hkeep
      · rw [keep_of_mem_cleanup_byUser hl hb] at hkeep
        cases hkeep
  | some b2 =>
      simp only [hf]
      refine ⟨fun c l hl hb => ?_, fun u2 l hl hb => ?_⟩
      · rw [dget_dset] at hl
        split at hl
        · cases hl
          have hm := List.mem_of_mem_filter hb
          rw [keep_of_mem_dgetD_cleanup_byCourt hm] at hkeep
          cases hkeep
        · rw [keep_of_mem_cleanup_byCourt hl hb] at hkeep
          cases hkeep
      · rw [dget_dset] at hl
        split at hl
        · cases hl
          have hm := List.mem_of_mem_filter hb
          rw [keep_of_mem_dgetD_cleanup_byUser hm] at hkeep
          cases hkeep
        · rw [keep_of_mem_cleanup_byUser hl hb] at hkeep
          cases hkeep

/-- C3: `confirm_payment` first sweeps (at clock reading `now1`); if the
user's post-sweep list holds no PENDING booking with the id, it fails
with the NotFound message and no further state change; if it holds one
that is expired at the later clock reading `now2`, it fails with the
HoldExpired message and the booking is removed from both indices as a
side effect — a distinct outcome from NotFound. -/
theorem C3_confirm_failure_taxonomy (now1 now2 : Nat) (u : User) (id : String)
    (L : LedgerState) :
    (findPending (dgetD (cleanup_expired_holds now1 L).byUser u.username []) id = none →
      confirm_payment now1 now2 u id L =
        .ok ((false, "Booking not found or not pending", none),
          cleanup_expired_holds now1 L, u))
    ∧ (∀ b, findPending (dgetD (cleanup_expired_holds now1 L).byUser u.username []) id
          = some b →
        b.is_expired now2 = true →
        ∃ L2, confirm_payment now1 now2 u id L =
            .ok ((false, "Hold expired. Please start again.", none), L2, u)
          ∧ (∀ c l, dget L2.byCourt c = some l → b ∉ l)
          ∧ (∀ u2 l, dget L2.byUser u2 = some l → b ∉ l)) := by
  constructor
  · intro hfind
    simp only [confirm_payment, hfind]
  · intro b hfind hexp
    refine ⟨(cancel_pending_booking now2 u.username id
        (cleanup_expired_holds now1 L)).2, ?_, ?_, ?_⟩
    · simp only [confirm_payment, hfind, hexp, if_true]
    · exact (not_mem_cancel_of_expired u.username id _ hexp).1
    · exact (not_mem_cancel_of_expired u.username id _ hexp).2

/-- Witness for C3: at `staleL`, an id absent from the user's list yields
the NotFound outcome, and the hold of `staleBk` — live at the sweep
reading 28800540 but expired at the check reading 28800545 — yields the
HoldExpired outcome. -/
theorem C3_confirm_failure_taxonomy_witness :
    confirm_payment 28800540 28800545 demoUser "BK-no-such-id" staleL =
      .ok ((false, "Booking not found or not pending", none),
        cleanup_expired_holds 28800540 staleL, demoUser)
    ∧ ∃ L2, confirm_payment 28800540 28800545 demoUser "BK-00020000-0001" staleL =
          .ok ((false, "Hold expired. Please start again.", none), L2, demoUser)
        ∧ (∀ c l, dget L2.byCourt c = some l → staleBk ∉ l)
        ∧ (∀ u2 l, dget L2.byUser u2 = some l → staleBk ∉ l) :=
  ⟨(C3_confirm_failure_taxonomy 28800540 28800545 demoUser "BK-no-such-id" staleL).1
      (by decide),
    (C3_confirm_failure_taxonomy 28800540 28800545 demoUser "BK-00020000-0001" staleL).2
      staleBk (by decide) (by decide)⟩

/-! ## C4: payment atomicity -/

/-- C4: on a live PENDING booking found for the user, `confirm_payment`
either fails with the InsufficientFunds message leaving the ledger state,
the stored booking (still PENDING, hold untouched) and the user's balance
exactly as they were after the sweep, or succeeds, in which case the
returned and stored booking is PAID with no hold expiration and the
balance is the old balance minus exactly one deduction of the price. -/
theorem C4_payment_atomicity (now1 now2 : Nat) (u : User) (id : String)
    (L : LedgerState) (b : Booking)
    (hfind : findPending
      (dgetD (cleanup_expired_holds now1 L).byUser u.username []) id = some b)
    (hlive : b.is_expired now2 = false) :
    (u.can_afford b.price_usd = false →
      confirm_payment now1 now2 u id L =
        .ok ((false, "Insufficient balance", some b),
          cleanup_expired_holds now1 L, u)
      ∧ b ∈ dgetD (cleanup_expired_holds now1 L).byUser u.username []
      ∧ b.status = .PENDING)
    ∧ (u.can_afford b.price_usd = true →
      confirm_payment now1 now2 u id L =
        .ok ((true, "Payment successful", some b.confirm_payment),
          { cleanup_expired_holds now1 L with
            byUser := dset (cleanup_expired_holds now1 L).byUser u.username
              (markPaidIn
                (dgetD (cleanup_expired_holds now1 L).byUser u.username []) id)
            byCourt := dset (cleanup_expired_holds now1 L).byCourt b.court_id
              (markPaidIn
                (dgetD (cleanup_expired_holds now1 L).byCourt b.court_id []) id) },
          { u with balance_usd := round2 (u.balance_usd - b.price_usd) })
      ∧ b.confirm_payment.status = .PAID
      ∧ b.confirm_payment.hold_expires_at = none
      ∧ (∀ (l : List Booking) (x : Booking), x ∈ markPaidIn l id →
          x.booking_id = id → x.status = .PAID ∧ x.hold_expires_at = none)) := by
  have hfind2 := hfind
  rw [findPending] at hfind2
  have hp := List.find?_some hfind2
  simp only [Bool.and_eq_true, beq_iff_eq] at hp
  have hmem : b ∈ dgetD (cleanup_expired_holds now1 L).byUser u.username [] :=
    List.mem_of_find?_eq_some hfind2
  have hpend : b.status = .PENDING := hp.2
  constructor
  · intro hca
    refine ⟨?_, hmem, hpend⟩
    simp only [confirm_payment, hfind, hlive, hca]
    rfl
  · intro hca
    have hge : u.balance_usd ≥ b.price_usd := by
      have h2 := hca
      rw [User.can_afford, decide_eq_true_eq] at h2
      exact h2
    have hnn : ¬ (u.balance_usd - b.price_usd < 0) :=
      not_lt.mpr (sub_nonneg.mpr hge)
    refine ⟨?_, rfl, rfl, ?_⟩
    · simp only [confirm_payment, hfind, hlive, hca, User.deduct_balance,
        if_pos hge, User.setBalance, if_neg hnn, Except.map]
      rfl
    · intro l x hx hid
      obtain ⟨y, hy, hxy⟩ := List.mem_map.mp hx
      by_cases hyid : (y.booking_id == id) = true
      · rw [if_pos hyid] at hxy
        subst hxy
        exact ⟨rfl, rfl⟩
      · rw [if_neg hyid] at hxy
        subst hxy
        rw [hid] at hyid
        simp at hyid

/-- Witness for C4: confirming the live hold of `staleL` at minute
28800540 with a 50 USD balance succeeds, flips the booking to PAID with
no hold, and debits exactly the 10 USD price. -/
theorem C4_payment_atomicity_witness :
    demoUser.can_afford staleBk.price_usd = true ∧
    confirm_payment 28800540 28800540 demoUser "BK-00020000-0001" staleL =
      .ok ((true, "Payment successful", some staleBk.confirm_payment),
        { cleanup_expired_holds 28800540 staleL with
          byUser := dset (cleanup_expired_holds 28800540 staleL).byUser "alice"
            (markPaidIn
              (dgetD (cleanup_expired_holds 28800540 staleL).byUser "alice" [])
              "BK-00020000-0001")
          byCourt := dset (cleanup_expired_holds 28800540 staleL).byCourt
            staleBk.court_id
            (markPaidIn
              (dgetD (cleanup_expired_holds 28800540 staleL).byCourt
                staleBk.court_id []) "BK-00020000-0001") },
        { demoUser with
          balance_usd := round2 (demoUser.balance_usd - staleBk.price_usd) }) ∧
    staleBk.confirm_payment.status = .PAID ∧
    staleBk.confirm_payment.hold_expires_at = none := by
  have h := (C4_payment_atomicity 28800540 28800540 demoUser "BK-00020000-0001"
      staleL staleBk (by decide) (by decide)).2 (by decide)
  exact ⟨by decide, h.1, h.2.1, h.2.2.1⟩

/-! ## C9: deterministic listing order -/

theorem bkeyLe_iff (a b : Booking) : bkeyLe a b = true ↔ bkey a ≤ bkey b := by
  rw [bkeyLe, bkey, bkey, Prod.Lex.le_iff]
  simp

theorem bkeyLe_trans (a b c : Booking) :
    bkeyLe a b → bkeyLe b c → bkeyLe a c := by
  intro h1 h2
  rw [bkeyLe_iff] at h1 h2 ⊢
  exact le_trans h1 h2

theorem bkeyLe_total (a b : Booking) : bkeyLe a b || bkeyLe b a := by
  rcases le_total (bkey a) (bkey b) with h | h <;> simp [(bkeyLe_iff _ _).mpr h]

theorem sortBookings_perm (l : List Booking) : (sortBookings l).Perm l :=
  List.mergeSort_perm l bkeyLe

theorem sortBookings_sorted (l : List Booking) :
    (sortBookings l).Pairwise (fun a b => bkeyLe a b = true) :=
  List.sorted_mergeSort bkeyLe_trans bkeyLe_total l

/-- Two sorted lists that are permutations of each other, with no
repeated sort key, are equal. -/
theorem sorted_perm_eq {l1 l2 : List Booking} (hperm : l1.Perm l2)
    (hs1 : l1.Pairwise (fun a b => bkeyLe a b = true))
    (hs2 : l2.Pairwise (fun a b => bkeyLe a b = true))
    (hnd : (l1.map bkey).Nodup) : l1 = l2 := by
  have hne1 : l1.Pairwise (fun a b => bkey a ≠ bkey b) :=
    List.pairwise_map.mp hnd
  have hne2 : l2.Pairwise (fun a b => bkey a ≠ bkey b) :=
    List.pairwise_map.mp ((hperm.map bkey).nodup hnd)
  haveI : IsAntisymm Booking (fun a b => bkey a < bkey b ∨ a = b) := by
    constructor
    intro a b h1 h2
    rcases h1 with h1 | h1
    · rcases h2 with h2 | h2
      · exact absurd h1 (lt_asymm h2)
      · exact h2.symm
    · exact h1
  refine List.eq_of_perm_of_sorted (r := fun a b => bkey a < bkey b ∨ a = b)
    hperm ?_ ?_
  · exact (hs1.and hne1).imp
      (fun h => Or.inl (lt_of_le_of_ne ((bkeyLe_iff _ _).mp h.1) h.2))
  · exact (hs2.and hne2).imp
      (fun h => Or.inl (lt_of_le_of_ne ((bkeyLe_iff _ _).mp h.1) h.2))

/-- C9: `get_user_bookings` and `get_all_bookings` sweep, then return
exactly the live bookings (of the user, resp. of all courts) sorted by
`(start, booking_id)` ascending; when no two bookings share a sort key
the output is independent of the stored order. -/
theorem C9_listings (now : Nat) (un : String) (L : LedgerState) :
    ((get_user_bookings now un L).1.Perm
        ((dgetD L.byUser un []).filter (keep now))
      ∧ (get_user_bookings now un L).1.Pairwise (fun a b => bkeyLe a b = true)
      ∧ (get_user_bookings now un L).2 = cleanup_expired_holds now L)
    ∧ ((get_all_bookings now L).1.Perm
        ((L.byCourt.map Prod.snd).flatten.filter (keep now))
      ∧ (get_all_bookings now L).1.Pairwise (fun a b => bkeyLe a b = true)
      ∧ (get_all_bookings now L).2 = cleanup_expired_holds now L)
    ∧ (∀ L2 : LedgerState,
        (dgetD L.byUser un []).Perm (dgetD L2.byUser un []) →
        ((dgetD L.byUser un []).map bkey).Nodup →
        (get_user_bookings now un L).1 = (get_user_bookings now un L2).1) := by
  refine ⟨⟨?_, ?_, rfl⟩, ⟨?_, ?_, rfl⟩, ?_⟩
  · rw [get_user_bookings]
    simp only [dgetD_cleanup_byUser]
    exact sortBookings_perm _
  · exact sortBookings_sorted _
  · rw [get_all_bookings]
    simp only
    have hflat : ((cleanup_expired_holds now L).byCourt.map Prod.snd).flatten =
        ((L.byCourt.map Prod.snd).flatten).filter (keep now) := by
      rw [byCourt_cleanup, List.filter_flatten]
      congr 1
      simp only [mapVals, List.map_map]
      rfl
    rw [hflat]
    exact sortBookings_perm _
  · exact sortBookings_sorted _
  · intro L2 hperm hnd
    rw [get_user_bookings, get_user_bookings]
    simp only [dgetD_cleanup_byUser]
    refine sorted_perm_eq ?_ (sortBookings_sorted _) (sortBookings_sorted _) ?_
    · exact (sortBookings_perm _).trans
        ((hperm.filter (keep now)).trans (sortBookings_perm _).symm)
    · have hsub : List.Sublist (((dgetD L.byUser un []).filter (keep now)).map bkey)
          ((dgetD L.byUser un []).map bkey) :=
        (List.filter_sublist _).map bkey
      exact (((sortBookings_perm
          ((dgetD L.byUser un []).filter (keep now))).map bkey).symm).nodup
        (hsub.nodup hnd)

/-- Witness for C9: the listing of `staleL` at minute 28800540 contains
exactly its one live booking, in order. -/
theorem C9_listings_witness :
    (get_user_bookings 28800540 "alice" staleL).1.Perm
        ((dgetD staleL.byUser "alice" []).filter (keep 28800540))
    ∧ (get_user_bookings 28800540 "alice" staleL).1.Pairwise
        (fun a b => bkeyLe a b = true) :=
  ⟨(C9_listings 28800540 "alice" staleL).1.1,
    (C9_listings 28800540 "alice" staleL).1.2.1⟩

/-! ## C7: identifier generation -/

theorem decodeDigits_append_digit (l : List Nat) (d : Nat) :
    decodeDigits (l ++ [d]) = 10 * decodeDigits l + d := by
  rw [decodeDigits, List.foldl_append]
  rfl

theorem decodeDigits_aux (fuel : Nat) : ∀ n : Nat, n ≤ fuel →
    decodeDigits (natDigitsBEAux fuel n) = n := by
  induction fuel with
  | zero =>
      intro n hn
      interval_cases n
      rfl
  | succ fuel ih =>
      intro n hn
      by_cases h0 : n = 0
      · subst h0
        rfl
      · have hdiv : n / 10 ≤ fuel := by
          have := Nat.div_lt_self (Nat.pos_of_ne_zero h0) (by norm_num : 1 < 10)
          omega
        rw [natDigitsBEAux, if_neg h0, decodeDigits_append_digit, ih _ hdiv]
        omega

theorem decodeDigits_natDigitsBE (n : Nat) :
    decodeDigits (natDigitsBE n) = n :=
  decodeDigits_aux n n le_rfl

theorem decodeDigits_replicate_zero (k : Nat) (l : List Nat) :
    decodeDigits (List.replicate k 0 ++ l) = decodeDigits l := by
  induction k with
  | zero => rfl
  | succ k ih =>
      rw [List.replicate_succ, List.cons_append]
      exact ih

theorem decodeDigits_padDigits (w n : Nat) :
    decodeDigits (padDigits w n) = n := by
  rw [padDigits, decodeDigits_replicate_zero, decodeDigits_natDigitsBE]

theorem natDigitsBEAux_lt (fuel : Nat) : ∀ n : Nat, ∀ x ∈ natDigitsBEAux fuel n, x < 10 := by
  induction fuel with
  | zero => intro n x hx; simp [natDigitsBEAux] at hx
  | succ fuel ih =>
      intro n x hx
      rw [natDigitsBEAux] at hx
      split at hx
      · simp at hx
      · rcases List.mem_append.mp hx with h | h
        · exact ih _ x h
        · simp only [List.mem_singleton] at h
          subst h
          exact Nat.mod_lt _ (by norm_num)

theorem padDigits_lt (w n : Nat) : ∀ x ∈ padDigits w n, x < 10 := by
  intro x hx
  rcases List.mem_append.mp hx with h | h
  · rw [List.eq_of_mem_replicate h]
    norm_num
  · exact natDigitsBEAux_lt n n x h

theorem charVal_digitChar {d : Nat} (h : d < 10) : charVal (digitChar d) = d := by
  interval_cases d <;> rfl

theorem map_charVal_digitChar (l : List Nat) (h : ∀ x ∈ l, x < 10) :
    (l.map digitChar).map charVal = l := by
  rw [List.map_map]
  have h2 : ∀ x ∈ l, (charVal ∘ digitChar) x = id x :=
    fun x hx => charVal_digitChar (h x hx)
  rw [List.map_congr_left h2, List.map_id]

theorem pad4_inj : Function.Injective pad4 := by
  intro a b h
  have hdata : (padDigits 4 a).map digitChar = (padDigits 4 b).map digitChar :=
    congrArg String.data h
  have h2 : padDigits 4 a = padDigits 4 b := by
    rw [← map_charVal_digitChar (padDigits 4 a) (padDigits_lt 4 a),
      ← map_charVal_digitChar (padDigits 4 b) (padDigits_lt 4 b), hdata]
  have h3 := congrArg decodeDigits h2
  rwa [decodeDigits_padDigits, decodeDigits_padDigits] at h3

theorem mkId_inj (d : String) : Function.Injective (mkId d) := by
  intro a b h
  apply pad4_inj
  have hdata := congrArg String.data h
  simp only [mkId, String.data_append] at hdata
  apply String.ext
  exact List.append_cancel_left hdata

/-- Unfolding of one generator step: the id issued is `mkId` of the
bumped per-date counter. -/
theorem generate_id_eq (cs : Dict Nat) (d : String) :
    generate_id cs d = (mkId d (dgetD cs d 0 + 1), dset cs d (dgetD cs d 0 + 1)) :=
  rfl

theorem idsFor_runGen (d : String) : ∀ (ks : List String) (cs : Dict Nat),
    idsFor d ks cs =
      (List.range' (dgetD cs d 0 + 1) (ks.count d)).map (mkId d) := by
  intro ks
  induction ks with
  | nil => intro cs; rfl
  | cons k ks ih =>
      intro cs
      by_cases hk : k = d
      · subst hk
        simp only [idsFor, runGen, generate_id_eq, List.zip_cons_cons,
          List.filter_cons, List.count_cons, beq_self_eq_true, reduceIte,
          List.map_cons]
        have h2 := ih (dset cs k (dgetD cs k 0 + 1))
        rw [idsFor] at h2
        rw [h2, dgetD_dset_self]
        simp [dgetD, List.range']
      · have hkb : (k == d) = false := beq_false_of_ne hk
        simp only [idsFor, runGen, generate_id_eq, List.zip_cons_cons,
          List.filter_cons, List.count_cons, hkb, Bool.false_eq_true, reduceIte,
          Nat.add_zero]
        have h2 := ih (dset cs k (dgetD cs k 0 + 1))
        rw [idsFor] at h2
        rw [h2, dgetD_dset_ne _ _ _ _ _ hk]

/-- C7: starting from a fresh generator, along any sequence of requests
the ids issued for a given date key are exactly
`BK-<key>-0001 .. BK-<key>-000N` (zero-padded, in request order, counters
monotone and never reused), and they are pairwise distinct. -/
theorem C7_identifier_generation (d : String) (ks : List String) :
    idsFor d ks [] = (List.range' 1 (ks.count d)).map (mkId d)
    ∧ (idsFor d ks []).Nodup
    ∧ ∀ cs : Dict Nat, generate_id cs d =
        (mkId d (dgetD cs d 0 + 1), dset cs d (dgetD cs d 0 + 1)) := by
  have h := idsFor_runGen d ks []
  refine ⟨h, ?_, fun cs => rfl⟩
  rw [h]
  exact List.Nodup.map (mkId_inj d) (List.nodup_range' 1 (ks.count d))

/-! ## C1: the no-double-booking invariant -/

theorem DisjD_mapVals_filter (p : Booking → Bool) {d : Dict (List Booking)}
    (h : DisjD d) : DisjD (mapVals (fun bs => bs.filter p) d) := by
  intro c l hl
  rw [dget_mapVals] at hl
  cases hg : dget d c with
  | none => rw [hg] at hl; cases hl
  | some l0 =>
      rw [hg] at hl
      cases hl
      exact (h c l0 hg).filter p

theorem DisjD_dset {d : Dict (List Booking)} {v : List Booking} (k : String)
    (hd : DisjD d) (hv : v.Pairwise Disj) : DisjD (dset d k v) := by
  intro c l hl
  rw [dget_dset] at hl
  split at hl
  · cases hl
    exact hv
  · exact hd c l hl

theorem DisjD_dgetD {d : Dict (List Booking)} (h : DisjD d) (c : String) :
    (dgetD d c []).Pairwise Disj := by
  rw [dgetD]
  cases hg : dget d c with
  | none => exact List.Pairwise.nil
  | some l0 => exact h c l0 hg

/-- The ledger invariant: every stored court list is pairwise
interval-disjoint (live or not). -/
def InvS (L : LedgerState) : Prop := DisjD L.byCourt

theorem inv_cleanup {L : LedgerState} (now : Nat) (h : InvS L) :
    InvS (cleanup_expired_holds now L) :=
  DisjD_mapVals_filter (keep now) h

theorem markPaidIn_pairwise {l : List Booking} (id : String)
    (h : l.Pairwise Disj) : (markPaidIn l id).Pairwise Disj := by
  rw [markPaidIn]
  refine List.Pairwise.map _ ?_ h
  intro a b hab
  have ea : ∀ x : Booking,
      (if x.booking_id == id then x.confirm_payment else x).start = x.start ∧
      (if x.booking_id == id then x.confirm_payment else x).duration_slots =
        x.duration_slots := by
    intro x
    split <;> exact ⟨rfl, rfl⟩
  rcases hab with hab | hab
  · exact Or.inl (by
      simp only [Booking.end_time, (ea a).1, (ea a).2, (ea b).1]
      simpa [Booking.end_time] using hab)
  · exact Or.inr (by
      simp only [Booking.end_time, (ea b).1, (ea b).2, (ea a).1]
      simpa [Booking.end_time] using hab)

theorem inv_cancel {L : LedgerState} (now : Nat) (un id : String)
    (h : InvS L) : InvS (cancel_pending_booking now un id L).2 := by
  rw [cancel_pending_booking]
  cases hf : findPending
      (dgetD (cleanup_expired_holds now L).byUser un []) id with
  | none => exact inv_cleanup now h
  | some b =>
      refine DisjD_dset _ (inv_cleanup now h) ?_
      exact (DisjD_dgetD (inv_cleanup now h) _).filter _

theorem inv_admin {L : LedgerState} (now : Nat) (id : String)
    (h : InvS L) : InvS (admin_remove_booking now id L).2 := by
  rw [admin_remove_booking]
  cases hf : findCourtBooking (cleanup_expired_holds now L).byCourt id with
  | none => exact inv_cleanup now h
  | some p =>
      refine DisjD_dset _ (inv_cleanup now h) ?_
      exact (DisjD_dgetD (inv_cleanup now h) _).filter _

theorem inv_confirm {L : LedgerState} {r : Bool × String × Option Booking}
    {L2 : LedgerState} {u2 : User} (now1 now2 : Nat) (u : User) (id : String)
    (h : InvS L)
    (h2 : confirm_payment now1 now2 u id L = .ok (r, L2, u2)) : InvS L2 := by
  rw [confirm_payment] at h2
  cases hf : findPending
      (dgetD (cleanup_expired_holds now1 L).byUser u.username []) id with
  | none =>
      rw [hf] at h2
      simp only [Except.ok.injEq, Prod.mk.injEq] at h2
      obtain ⟨-, hL2, -⟩ := h2
      subst hL2
      exact inv_cleanup now1 h
  | some b =>
      rw [hf] at h2
      by_cases hexp : b.is_expired now2 = true
      · simp only [hexp, if_true, Except.ok.injEq, Prod.mk.injEq] at h2
        obtain ⟨-, hL2, -⟩ := h2
        subst hL2
        exact inv_cancel now2 u.username id (inv_cleanup now1 h)
      · rw [Bool.not_eq_true] at hexp
        simp only [hexp, Bool.false_eq_true, if_false] at h2
        by_cases hca : u.can_afford b.price_usd = true
        · simp only [hca, Bool.not_true, Bool.false_eq_true, if_false] at h2
          cases hd : u.deduct_balance b.price_usd with
          | error e => rw [hd] at h2; cases h2
          | ok p =>
              obtain ⟨ok, u3⟩ := p
              rw [hd] at h2
              cases ok with
              | true =>
                  simp only [Except.ok.injEq, Prod.mk.injEq] at h2
                  obtain ⟨-, hL2, -⟩ := h2
                  subst hL2
                  refine DisjD_dset _ (inv_cleanup now1 h) ?_
                  exact markPaidIn_pairwise id
                    (DisjD_dgetD (inv_cleanup now1 h) _)
              | false =>
                  simp only [Except.ok.injEq, Prod.mk.injEq] at h2
                  obtain ⟨-, hL2, -⟩ := h2
                  subst hL2
                  exact inv_cleanup now1 h
        · rw [Bool.not_eq_true] at hca
          simp only [hca, Bool.not_false, if_true, Except.ok.injEq,
            Prod.mk.injEq] at h2
          obtain ⟨-, hL2, -⟩ := h2
          subst hL2
          exact inv_cleanup now1 h

theorem inv_create {cfg : Config} {L : LedgerState} {b : Booking}
    {L2 : LedgerState} (today now : Nat) (un sp c : String) (st sl : Nat)
    (h : InvS L)
    (h2 : create_booking_hold cfg today now un sp c st sl L = .ok (b, L2)) :
    InvS L2 := by
  rw [create_booking_hold] at h2
  by_cases hwin : is_within_booking_window cfg today (st / 1440) = true
  · rw [hwin] at h2
    simp only [Bool.not_true, Bool.false_eq_true, if_false] at h2
    by_cases hav : check_court_availability L c st (st + 30 * sl) = true
    · rw [hav] at h2
      simp only [Bool.not_true, Bool.false_eq_true, if_false,
        Except.ok.injEq, Prod.mk.injEq] at h2
      obtain ⟨hb, hL2⟩ := h2
      subst hL2
      refine DisjD_dset _ h ?_
      rw [List.pairwise_append]
      refine ⟨DisjD_dgetD h c, List.pairwise_singleton _ _, ?_⟩
      intro a ha b2 hb2
      simp only [List.mem_singleton] at hb2
      subst hb2
      simp only [check_court_availability, List.all_eq_true] at hav
      have h3 := hav a ha
      simp only [Bool.or_eq_true, decide_eq_true_eq, ge_iff_le] at h3
      rcases h3 with h3 | h3
      · exact Or.inr (by
          simp only [Booking.end_time, Booking.set_hold_expiration]
          split <;> simpa using h3)
      · exact Or.inl (by
          simp only [Booking.end_time, Booking.set_hold_expiration]
          split <;> simpa using h3)
    · rw [Bool.not_eq_true] at hav
      rw [hav] at h2
      simp at h2
  · rw [Bool.not_eq_true] at hwin
    rw [hwin] at h2
    simp at h2

/-- Every reachable ledger state satisfies the stored-disjointness
invariant. -/
theorem inv_reachable {cfg : Config} {L : LedgerState}
    (h : Reachable cfg L) : InvS L := by
  induction h with
  | init => intro c l hl; cases hl
  | create today now un sp c st sl h1 h2 ih => exact inv_create today now un sp c st sl ih h2
  | confirm now1 now2 u id h1 h2 ih => exact inv_confirm now1 now2 u id ih h2
  | cancel now un id h1 ih => exact inv_cancel now un id ih
  | adminRemove now id h1 ih => exact inv_admin now id ih
  | sweep now h1 ih => exact inv_cleanup now ih

/-- C1: in every reachable ledger state, for every court the live
(PENDING-unexpired or PAID) bookings stored for that court occupy
pairwise disjoint intervals; and `create_booking_hold` refuses with
`SlotUnavailable` any window-valid request whose interval overlaps a live
booking on the requested court. -/
theorem C1_no_double_booking :
    (∀ (cfg : Config) (L : LedgerState), Reachable cfg L →
      ∀ (now : Nat) (c : String) (l : List Booking),
        dget L.byCourt c = some l →
        (l.filter (keep now)).Pairwise Disj)
    ∧ (∀ (cfg : Config) (today now : Nat) (un sp c : String) (st sl : Nat)
        (L : LedgerState) (b2 : Booking),
        is_within_booking_window cfg today (st / 1440) = true →
        b2 ∈ dgetD L.byCourt c [] →
        keep now b2 = true →
        st < b2.end_time → b2.start < st + 30 * sl →
        create_booking_hold cfg today now un sp c st sl L =
          .error .slotUnavailable) := by
  constructor
  · intro cfg L h now c l hl
    exact ((inv_reachable h) c l hl).filter (keep now)
  · intro cfg today now un sp c st sl L b2 hwin hmem hkeep hlt1 hlt2
    exact create_overlap_slotUnavailable cfg today now un sp c st sl L b2
      hmem hlt1 hlt2 hwin

/-- Witness for C1: the state reached by creating one hold from the
empty ledger, whose live bookings on B01 are pairwise disjoint, and the
refusal of an overlapping request against a live hold. -/
theorem C1_no_double_booking_witness :
    ([rbk].filter (keep 28800540)).Pairwise Disj ∧
    create_booking_hold demoCfg 20000 28800540 "bob" "badminton" "B01"
        28800600 2 staleL = .error .slotUnavailable := by
  have hcr : create_booking_hold demoCfg 20000 28800540 "alice" "badminton"
      "B01" 28800600 2 .init = .ok (rbk, rL) := rfl
  refine ⟨?_, ?_⟩
  · exact C1_no_double_booking.1 demoCfg rL
      (Reachable.create 20000 28800540 "alice" "badminton" "B01" 28800600 2
        Reachable.init hcr)
      28800540 "B01" [rbk] rfl
  · exact C1_no_double_booking.2 demoCfg 20000 28800540 "bob" "badminton"
      "B01" 28800600 2 staleL staleBk (by decide) (by decide) (by decide)
      (by decide) (by decide)

end CourtBooking
